import Mathlib

/-!
Verification of core algorithms of the aptos-core fork: the mempool priority
and TTL indexes, the Shoal++ order notifier, the DAG driver node formation,
the gas profiler reconciliation check, and the block executor mock harness.
Rust machine integers are modelled as Nat (with explicit bounds where
overflow matters), BTreeSet state as lists, and fallible operations as
Option / Except.
-/

namespace Mempool

/-- Transaction type priority for ordering in mempool (index.rs).
Lower numeric values indicate higher priority. -/
inductive TransactionTypePriority where
  | CEX
  | Platform
  | Contract
  | Script
  | Others
  deriving DecidableEq, Repr

/-- The Rust derived discriminant values: CEX = 0, Platform = 1, Contract = 2,
Script = 3, Others = 4. -/
def TransactionTypePriority.discr : TransactionTypePriority → Nat
  | .CEX => 0
  | .Platform => 1
  | .Contract => 2
  | .Script => 3
  | .Others => 4

/-- Rust derived Ord on the fieldless enum compares discriminants. -/
def TransactionTypePriority.cmp (a b : TransactionTypePriority) : Ordering :=
  compare a.discr b.discr

/-- Modelled from the spec: `ReplayProtector` (aptos-types, not under src/) is
either a monotonic per-sender sequence number or a nonce (orderless); the
derived order lists the nonce variant first and compares the payload within a
variant, so `Nonce(0)` is the least value (the TTL index relies on this for
its minimal sentinel key). -/
inductive ReplayProtector where
  | nonce (n : Nat)
  | sequenceNumber (n : Nat)
  deriving DecidableEq, Repr

/-- Derived Ord for `ReplayProtector`: variant order first, payload second. -/
def ReplayProtector.cmp : ReplayProtector → ReplayProtector → Ordering
  | .nonce a, .nonce b => compare a b
  | .nonce _, .sequenceNumber _ => .lt
  | .sequenceNumber _, .nonce _ => .gt
  | .sequenceNumber a, .sequenceNumber b => compare a b

/-- `OrderedQueueKey` (index.rs): the mempool priority key. `AccountAddress`
(32 bytes, lexicographic order), `HashValue` (32-byte digest) and the time
fields are modelled as Nat, which is order-isomorphic to their byte orders. -/
structure OrderedQueueKey where
  transaction_type_priority : TransactionTypePriority
  cex_timestamp : Option Nat
  gas_ranking_score : Nat
  expiration_time : Nat
  insertion_time : Nat
  address : Nat
  replay_protector : ReplayProtector
  hash : Nat
  deriving DecidableEq, Repr

/-- `OrderedQueueKey::cmp` (index.rs lines 250-299), translated match-by-match.
`Ordering.swap` is Rust's `Ordering::reverse`. A `gt` result means the key is
greater in the BTreeSet, hence yielded earlier by the reverse iterator, hence
higher priority. -/
def OrderedQueueKey.cmp (a b : OrderedQueueKey) : Ordering :=
  match (TransactionTypePriority.cmp a.transaction_type_priority
      b.transaction_type_priority).swap with
  | .eq =>
    match
      (if a.transaction_type_priority = TransactionTypePriority.CEX then
        match a.cex_timestamp, b.cex_timestamp with
        | some ts1, some ts2 =>
          match compare ts1 ts2 with
          | .eq => Ordering.eq
          | ordering => ordering.swap
        | some _, none => Ordering.gt
        | none, some _ => Ordering.lt
        | none, none => Ordering.eq
      else Ordering.eq) with
    | .eq =>
      match compare a.gas_ranking_score b.gas_ranking_score with
      | .eq =>
        match (compare a.insertion_time b.insertion_time).swap with
        | .eq =>
          match compare a.address b.address with
          | .eq =>
            match (ReplayProtector.cmp a.replay_protector b.replay_protector).swap with
            | .eq => compare a.hash b.hash
            | ordering => ordering
          | ordering => ordering
        | ordering => ordering
      | ordering => ordering
    | ordering => ordering
  | ordering => ordering

/-- Spec-side combinator: an ascending tie-break means the smaller field value
has higher priority, i.e. compares greater (the priority index iterates the
BTreeSet in reverse, so greater keys are decided first). -/
def byAscending (x y : Nat) : Ordering := compare y x

/-- Spec-side combinator: a descending tie-break means the larger field value
has higher priority, i.e. compares greater. -/
def byDescending (x y : Nat) : Ordering := compare x y

/-- Spec-side CEX tie-break: ascending order timestamp, with a present
timestamp beating an absent one. -/
def cexTimestampSpecCmp : Option Nat → Option Nat → Ordering
  | some t1, some t2 => byAscending t1 t2
  | some _, none => .gt
  | none, some _ => .lt
  | none, none => .eq

/-- The reference priority order exactly as the spec states it: type class
first (CEX before Platform before Contract before Script before Others), then
for two CEX keys ascending order timestamp (present beats absent), then
descending gas ranking score, then ascending insertion time, then ascending
sender address, then descending replay protector, then ascending digest. -/
def specPriorityCmp (a b : OrderedQueueKey) : Ordering :=
  (byAscending a.transaction_type_priority.discr b.transaction_type_priority.discr).then <|
  (if a.transaction_type_priority = TransactionTypePriority.CEX ∧
      b.transaction_type_priority = TransactionTypePriority.CEX then
    cexTimestampSpecCmp a.cex_timestamp b.cex_timestamp
  else Ordering.eq).then <|
  (byDescending a.gas_ranking_score b.gas_ranking_score).then <|
  (byAscending a.insertion_time b.insertion_time).then <|
  (byAscending a.address b.address).then <|
  (ReplayProtector.cmp a.replay_protector b.replay_protector).then <|
  byAscending a.hash b.hash

/-- The reference order amended to what the code implements: the last three
tie-breaks run in the opposite direction — descending sender address,
ascending replay protector, descending digest. -/
def specPriorityCmpAmended (a b : OrderedQueueKey) : Ordering :=
  (byAscending a.transaction_type_priority.discr b.transaction_type_priority.discr).then <|
  (if a.transaction_type_priority = TransactionTypePriority.CEX ∧
      b.transaction_type_priority = TransactionTypePriority.CEX then
    cexTimestampSpecCmp a.cex_timestamp b.cex_timestamp
  else Ordering.eq).then <|
  (byDescending a.gas_ranking_score b.gas_ranking_score).then <|
  (byAscending a.insertion_time b.insertion_time).then <|
  (byDescending a.address b.address).then <|
  (ReplayProtector.cmp b.replay_protector a.replay_protector).then <|
  byDescending a.hash b.hash

theorem nat_compare_swap (x y : Nat) : (compare x y).swap = compare y x := by
  simp [compare, compareOfLessAndEq]
  rcases Nat.lt_trichotomy x y with h | h | h
  · simp [h, Nat.not_lt.mpr (Nat.le_of_lt h), Ne.symm (Nat.ne_of_lt h), Ordering.swap]
  · simp [h, Ordering.swap]
  · simp [h, Nat.not_lt.mpr (Nat.le_of_lt h), Ne.symm (Nat.ne_of_gt h),
      Nat.ne_of_gt h, Nat.lt_irrefl, Ordering.swap]

theorem rp_cmp_swap (x y : ReplayProtector) :
    (ReplayProtector.cmp x y).swap = ReplayProtector.cmp y x := by
  cases x <;> cases y <;> first | exact nat_compare_swap _ _ | rfl

theorem discr_inj (a b : TransactionTypePriority) (h : a.discr = b.discr) : a = b := by
  cases a <;> cases b <;> first | rfl | simp [TransactionTypePriority.discr] at h

theorem nat_compare_eq_iff (x y : Nat) : compare x y = Ordering.eq ↔ x = y := by
  simp [compare, compareOfLessAndEq]
  rcases Nat.lt_trichotomy x y with h | h | h
  · simp [h, Nat.ne_of_lt h]
  · simp [h]
  · simp [Nat.not_lt.mpr (Nat.le_of_lt h), Nat.ne_of_gt h]

theorem cmp_eq_specAmended (a b : OrderedQueueKey) :
    OrderedQueueKey.cmp a b = specPriorityCmpAmended a b := by
  unfold OrderedQueueKey.cmp specPriorityCmpAmended
  simp only [byAscending, byDescending, TransactionTypePriority.cmp,
    nat_compare_swap, rp_cmp_swap]
  cases h1 : compare b.transaction_type_priority.discr a.transaction_type_priority.discr with
  | lt => rfl
  | gt => rfl
  | eq =>
  have hTT : b.transaction_type_priority = a.transaction_type_priority :=
    discr_inj _ _ ((nat_compare_eq_iff _ _).mp h1)
  by_cases hC : a.transaction_type_priority = TransactionTypePriority.CEX
  case neg =>
    rw [if_neg hC, if_neg (fun h => hC h.1)]
    cases hG : compare a.gas_ranking_score b.gas_ranking_score with
    | lt => rfl
    | gt => rfl
    | eq =>
    cases hI : compare b.insertion_time a.insertion_time with
    | lt => rfl
    | gt => rfl
    | eq =>
    cases hAd : compare a.address b.address with
    | lt => rfl
    | gt => rfl
    | eq =>
    cases hR : ReplayProtector.cmp b.replay_protector a.replay_protector with
    | lt => rfl
    | gt => rfl
    | eq => rfl
  case pos =>
    rw [if_pos hC, if_pos ⟨hC, hTT.trans hC⟩]
    cases hca : a.cex_timestamp with
    | none =>
      cases hcb : b.cex_timestamp with
      | some ts2 => rfl
      | none =>
        cases hG : compare a.gas_ranking_score b.gas_ranking_score with
        | lt => rfl
        | gt => rfl
        | eq =>
        cases hI : compare b.insertion_time a.insertion_time with
        | lt => rfl
        | gt => rfl
        | eq =>
        cases hAd : compare a.address b.address with
        | lt => rfl
        | gt => rfl
        | eq =>
        cases hR : ReplayProtector.cmp b.replay_protector a.replay_protector with
        | lt => rfl
        | gt => rfl
        | eq => rfl
    | some ts1 =>
      cases hcb : b.cex_timestamp with
      | none => rfl
      | some ts2 =>
        simp only [cexTimestampSpecCmp, byAscending]
        cases hT : compare ts1 ts2 with
        | lt =>
          have : compare ts2 ts1 = Ordering.gt := by
            have := nat_compare_swap ts1 ts2
            rw [hT] at this
            exact this.symm
          rw [this]
          rfl
        | gt =>
          have : compare ts2 ts1 = Ordering.lt := by
            have := nat_compare_swap ts1 ts2
            rw [hT] at this
            exact this.symm
          rw [this]
          rfl
        | eq =>
          obtain rfl := (nat_compare_eq_iff _ _).mp hT
          rw [(nat_compare_eq_iff ts1 ts1).mpr rfl]
          cases hG : compare a.gas_ranking_score b.gas_ranking_score with
          | lt => rfl
          | gt => rfl
          | eq =>
          cases hI : compare b.insertion_time a.insertion_time with
          | lt => rfl
          | gt => rfl
          | eq =>
          cases hAd : compare a.address b.address with
          | lt => rfl
          | gt => rfl
          | eq =>
          cases hR : ReplayProtector.cmp b.replay_protector a.replay_protector with
          | lt => rfl
          | gt => rfl
          | eq => rfl

/-- C1 counterexample: two Platform keys that agree on every field except the
sender address. The spec's reference order (ascending sender address) decides
the smaller address first, but `OrderedQueueKey::cmp` ranks the larger address
higher, so the comparator differs from the spec's reference order. -/
theorem C1_address_direction_counterexample :
    OrderedQueueKey.cmp
      { transaction_type_priority := .Platform, cex_timestamp := none,
        gas_ranking_score := 10, expiration_time := 0, insertion_time := 5,
        address := 0, replay_protector := .sequenceNumber 0, hash := 0 }
      { transaction_type_priority := .Platform, cex_timestamp := none,
        gas_ranking_score := 10, expiration_time := 0, insertion_time := 5,
        address := 1, replay_protector := .sequenceNumber 0, hash := 0 } ≠
    specPriorityCmp
      { transaction_type_priority := .Platform, cex_timestamp := none,
        gas_ranking_score := 10, expiration_time := 0, insertion_time := 5,
        address := 0, replay_protector := .sequenceNumber 0, hash := 0 }
      { transaction_type_priority := .Platform, cex_timestamp := none,
        gas_ranking_score := 10, expiration_time := 0, insertion_time := 5,
        address := 1, replay_protector := .sequenceNumber 0, hash := 0 } := by
  decide

/-- C1 (amended): the mempool priority comparator equals the spec's
lexicographic reference order with the final three tie-breaks reversed —
type class first (CEX before Platform before Contract before Script before
Others), then for two CEX keys ascending order timestamp (present beats
absent), then descending gas ranking score, then ascending insertion time,
then descending sender address, then ascending replay protector, then
descending digest; in particular every CEX key still has higher priority than
every non-CEX key regardless of gas or insertion time. -/
theorem C1_priority_comparator_matches_amended_reference (a b : OrderedQueueKey) :
    OrderedQueueKey.cmp a b = specPriorityCmpAmended a b ∧
    (a.transaction_type_priority = TransactionTypePriority.CEX →
      b.transaction_type_priority ≠ TransactionTypePriority.CEX →
      OrderedQueueKey.cmp a b = Ordering.gt) := by
  refine ⟨cmp_eq_specAmended a b, fun hA hB => ?_⟩
  rw [cmp_eq_specAmended]
  unfold specPriorityCmpAmended
  rw [hA]
  cases hbt : b.transaction_type_priority
  · exact absurd hbt hB
  all_goals rfl

/-- C1 witness: the amended comparator theorem applied at concrete keys — a
CEX key with low gas and late insertion still beats a Contract key with high
gas. -/
theorem C1_priority_comparator_witness :
    OrderedQueueKey.cmp
      { transaction_type_priority := .CEX, cex_timestamp := some 500,
        gas_ranking_score := 50, expiration_time := 0, insertion_time := 900,
        address := 7, replay_protector := .sequenceNumber 3, hash := 11 }
      { transaction_type_priority := .Contract, cex_timestamp := none,
        gas_ranking_score := 10000, expiration_time := 0, insertion_time := 1,
        address := 2, replay_protector := .sequenceNumber 0, hash := 5 } =
      Ordering.gt :=
  (C1_priority_comparator_matches_amended_reference _ _).2 rfl (by decide)

theorem nat_compare_lt_iff (x y : Nat) : compare x y = Ordering.lt ↔ x < y :=
  Nat.compare_eq_lt

theorem nat_compare_gt_iff (x y : Nat) : compare x y = Ordering.gt ↔ y < x :=
  Nat.compare_eq_gt

/-- `TTLOrderingKey` (index.rs). Rust `Duration` has nanosecond precision and
is modelled as total nanoseconds. -/
structure TTLOrderingKey where
  expiration_time : Nat
  address : Nat
  replay_protector : ReplayProtector
  deriving DecidableEq, Repr

/-- `TTLOrderingKey::cmp` (index.rs lines 375-385): expiration time, then
address, then replay protector. -/
def TTLOrderingKey.cmp (a b : TTLOrderingKey) : Ordering :=
  match compare a.expiration_time b.expiration_time with
  | .eq =>
    match compare a.address b.address with
    | .eq => ReplayProtector.cmp a.replay_protector b.replay_protector
    | ordering => ordering
  | ordering => ordering

/-- Strict order on TTL keys, as used by the BTreeSet. -/
def TTLOrderingKey.isBelow (a b : TTLOrderingKey) : Bool :=
  TTLOrderingKey.cmp a b == Ordering.lt

/-- `TTLIndex::gc` (index.rs lines 331-345). The BTreeSet is modelled as the
list of its member keys; `split_off(&ttl_key)` keeps the keys that are ≥
ttl_key in the index while the strictly smaller keys are drained and
returned. `Duration::from_micros(1)` is 1000 ns and `saturating_sub` is Nat
subtraction. First component: the returned (garbage collected) keys; second
component: the keys remaining in the index. -/
def TTLIndex.gc (data : List TTLOrderingKey) (now : Nat) :
    List TTLOrderingKey × List TTLOrderingKey :=
  let max_expiration_time := now - 1000
  let ttl_key : TTLOrderingKey :=
    { expiration_time := max_expiration_time, address := 0,
      replay_protector := .nonce 0 }
  (data.filter (fun k => TTLOrderingKey.isBelow k ttl_key),
   data.filter (fun k => ! TTLOrderingKey.isBelow k ttl_key))

/-- The GC sentinel key (cutoff expiration, zero address, nonce 0) is a lower
bound of all keys sharing its expiration time, so a key is strictly below the
sentinel exactly when its expiration time is strictly below the cutoff. -/
theorem isBelow_sentinel_iff (k : TTLOrderingKey) (c : Nat) :
    (TTLOrderingKey.isBelow k
      { expiration_time := c, address := 0, replay_protector := .nonce 0 } =
      true) ↔ k.expiration_time < c := by
  unfold TTLOrderingKey.isBelow TTLOrderingKey.cmp
  cases hE : compare k.expiration_time c with
  | lt => exact iff_of_true rfl ((nat_compare_lt_iff _ _).mp hE)
  | gt =>
    have hgt := (nat_compare_gt_iff _ _).mp hE
    exact iff_of_false (fun h => Bool.noConfusion h) (by omega)
  | eq =>
    have heq := (nat_compare_eq_iff _ _).mp hE
    refine iff_of_false ?_ (by omega)
    cases hA : compare k.address 0 with
    | lt => exact absurd ((nat_compare_lt_iff _ _).mp hA) (Nat.not_lt_zero _)
    | gt => exact fun h => Bool.noConfusion h
    | eq =>
      cases hR : k.replay_protector with
      | nonce n =>
        cases n with
        | zero => exact fun h => Bool.noConfusion h
        | succ m =>
          intro h
          have hg : compare (m + 1) 0 = Ordering.gt :=
            (nat_compare_gt_iff _ _).mpr (Nat.succ_pos m)
          simp [ReplayProtector.cmp, hg] at h
          exact Bool.noConfusion h
      | sequenceNumber n => exact fun h => Bool.noConfusion h

/-- C5: `gc(now)` removes from the index and returns exactly the entries
expired at `now` subject to the 1µs grace rule — an entry is collected iff
its expiration time is before `now`, is not later than the `now − 1µs`
cutoff, and does not tie the cutoff (ties resolve to not-yet-expired); every
other entry stays in the index. -/
theorem C5_ttl_gc_grace_rule (data : List TTLOrderingKey) (now : Nat)
    (k : TTLOrderingKey) :
    (k ∈ (TTLIndex.gc data now).1 ↔
      k ∈ data ∧ k.expiration_time < now ∧
      ¬ (now - 1000 < k.expiration_time) ∧ k.expiration_time ≠ now - 1000) ∧
    (k ∈ (TTLIndex.gc data now).2 ↔
      k ∈ data ∧ ¬ (k.expiration_time < now ∧
        ¬ (now - 1000 < k.expiration_time) ∧ k.expiration_time ≠ now - 1000)) := by
  unfold TTLIndex.gc
  simp only [List.mem_filter, Bool.not_eq_true', Bool.eq_false_iff,
    isBelow_sentinel_iff, ne_eq]
  constructor
  · constructor
    · rintro ⟨hm, h⟩
      exact ⟨hm, by omega⟩
    · rintro ⟨hm, h1, h2, h3⟩
      exact ⟨hm, by omega⟩
  · constructor
    · rintro ⟨hm, h⟩
      exact ⟨hm, by omega⟩
    · rintro ⟨hm, h⟩
      exact ⟨hm, by omega⟩

/-- `ParkingLotIndex` (index.rs lines 613-620): account addresses and hashes
are modelled as Nat; `data` is the vector of per-account BTreeSets of
`(sequence_number, hash)` pairs (each set modelled as its member list);
`account_indices` is the HashMap from account to slot in `data`, modelled as
an association list; `violation_count` models the global
CORE_MEMPOOL_INVARIANT_VIOLATION_COUNT counter. -/
structure ParkingLotIndex where
  data : List (Nat × List (Nat × Nat))
  account_indices : List (Nat × Nat)
  size : Nat
  violation_count : Nat
  deriving DecidableEq, Repr

/-- BTreeSet insert on the member-list model: returns the new member list and
whether the element was newly inserted. -/
def btreeSetInsert (s : List (Nat × Nat)) (x : Nat × Nat) :
    List (Nat × Nat) × Bool :=
  if x ∈ s then (s, false) else (s ++ [x], true)

/-- `ParkingLotIndex::insert` (index.rs lines 631-672). Only the index state
is modelled; the park-time bookkeeping mutates the transaction itself, not
the index. Orderless (nonce) transactions are never parked. -/
def ParkingLotIndex.insert (st : ParkingLotIndex) (sender : Nat)
    (rp : ReplayProtector) (hash : Nat) : ParkingLotIndex :=
  match rp with
  | .sequenceNumber sequence_number =>
    match List.lookup sender st.account_indices with
    | some index =>
      match st.data.get? index with
      | some (account, seq_nums) =>
        let inserted := btreeSetInsert seq_nums (sequence_number, hash)
        { st with
          data := st.data.set index (account, inserted.1),
          size := if inserted.2 then st.size + 1 else st.size }
      | none =>
        { st with violation_count := st.violation_count + 1 }
    | none =>
      { st with
        data := st.data ++ [(sender, [(sequence_number, hash)])],
        account_indices := st.account_indices ++ [(sender, st.data.length)],
        size := st.size + 1 }
  | .nonce _ => st

/-- C8: inserting a sequence-number transaction whose sender is present in
`account_indices` but whose mapped slot is absent from `data` increments the
invariant-violation counter and inserts nothing: `data`, `account_indices`
and `size` are unchanged. -/
theorem C8_parking_lot_invariant_violation (st : ParkingLotIndex)
    (sender seqNum hash i : Nat)
    (hidx : List.lookup sender st.account_indices = some i)
    (hdata : st.data.get? i = none) :
    (st.insert sender (.sequenceNumber seqNum) hash).data = st.data ∧
    (st.insert sender (.sequenceNumber seqNum) hash).account_indices =
      st.account_indices ∧
    (st.insert sender (.sequenceNumber seqNum) hash).size = st.size ∧
    (st.insert sender (.sequenceNumber seqNum) hash).violation_count =
      st.violation_count + 1 := by
  simp only [ParkingLotIndex.insert, hidx, hdata]
  exact ⟨trivial, trivial, trivial, trivial⟩

/-- C8 witness: a state whose index maps account 5 to slot 0 while the data
vector is empty; the insert leaves everything unchanged except the violation
counter. -/
theorem C8_parking_lot_invariant_violation_witness :
    (ParkingLotIndex.insert ⟨[], [(5, 0)], 0, 0⟩ 5
      (.sequenceNumber 7) 9).data = [] ∧
    (ParkingLotIndex.insert ⟨[], [(5, 0)], 0, 0⟩ 5
      (.sequenceNumber 7) 9).account_indices = [(5, 0)] ∧
    (ParkingLotIndex.insert ⟨[], [(5, 0)], 0, 0⟩ 5
      (.sequenceNumber 7) 9).size = 0 ∧
    (ParkingLotIndex.insert ⟨[], [(5, 0)], 0, 0⟩ 5
      (.sequenceNumber 7) 9).violation_count = 1 :=
  C8_parking_lot_invariant_violation ⟨[], [(5, 0)], 0, 0⟩ 5 7 9 0 rfl rfl

end Mempool

namespace Shoalpp

/-- `u64::to_le_bytes`: the 8 little-endian bytes of a u64 value. -/
def leBytes8 (v : Nat) : List Nat :=
  [v % 256, v / 256 % 256, v / 256 ^ 2 % 256, v / 256 ^ 3 % 256,
   v / 256 ^ 4 % 256, v / 256 ^ 5 % 256, v / 256 ^ 6 % 256, v / 256 ^ 7 % 256]

theorem leBytes8_length (v : Nat) : (leBytes8 v).length = 8 := rfl

/-- The byte accumulation loop of `committed_anchors_to_hashvalue`
(shoalpp_order_notifier.rs lines 62-69): extend with the little-endian bytes
of every entry of `sent_to_commit_anchor_rounds`, in order. -/
def committedAnchorsBytes (rounds : List Nat) : List Nat :=
  rounds.foldl (fun bytes value => bytes ++ leBytes8 value) []

/-- Modelled from the spec: `HashValue` (aptos-crypto, not under src/) is a
fixed-width 32-byte digest and `HashValue::from_slice` wraps a byte slice of
exactly the digest width, failing on any other length. -/
def HashValue.fromSlice (bytes : List Nat) : Option (List Nat) :=
  if bytes.length = 32 then some bytes else none

/-- `committed_anchors_to_hashvalue` (shoalpp_order_notifier.rs lines 62-69);
`none` models the `.expect` panic on a `from_slice` failure. -/
def committedAnchorsToHashvalue (rounds : List Nat) : Option (List Nat) :=
  HashValue.fromSlice (committedAnchorsBytes rounds)

/-- The initial `sent_to_commit_anchor_rounds` from `ShoalppOrderNotifier::new`
(line 58): four zero entries — one per DAG instance plus a fourth constant
slot, although only three DAG instances exist. -/
def initialAnchorRounds : List Nat := [0, 0, 0, 0]

/-- C2 counterexample: on the notifier's initial state the consensus data
hash is the 32-byte wrap of all four round entries, not the digest of the
three per-instance rounds — the three-round concatenation is 24 bytes and
`from_slice` rejects it outright. -/
theorem C2_consensus_hash_counterexample :
    committedAnchorsToHashvalue initialAnchorRounds ≠
      HashValue.fromSlice (committedAnchorsBytes [0, 0, 0]) := by
  decide

/-- C2 (amended): the `consensus_data_hash` of every emitted block equals the
little-endian concatenation of the FOUR entries of
`sent_to_commit_anchor_rounds` — the three per-instance last-committed anchor
rounds followed by the constant fourth 0 entry — wrapped unchanged into the
32-byte digest; `from_slice` applies no hash function. -/
theorem C2_consensus_hash_is_four_round_concat (r0 r1 r2 : Nat) :
    committedAnchorsToHashvalue [r0, r1, r2, 0] =
      some (leBytes8 r0 ++ leBytes8 r1 ++ leBytes8 r2 ++ leBytes8 0) := by
  unfold committedAnchorsToHashvalue committedAnchorsBytes HashValue.fromSlice
  simp [leBytes8]

/-- `create_block` (shoalpp_order_notifier.rs lines 71-126), restricted to
the state it reads and writes: the `sent_to_commit_anchor_rounds` vector and
the emitted `block_round`. The Rust
`assert!(anchor.round() > sent_to_commit_anchor_rounds[dag_id])` together
with the vector indexing is modelled by the guard (`none` = panic). The
round of the incoming anchor replaces its instance's entry, and the block
round is the sum of the vector after the update. -/
def createBlock (rounds : List Nat) (dagId anchorRound : Nat) :
    Option (Nat × List Nat) :=
  if dagId < rounds.length ∧ rounds.getD dagId 0 < anchorRound then
    let updated := rounds.set dagId anchorRound
    some (updated.sum, updated)
  else none

/-- Replacing an entry of a Nat list by a strictly larger value strictly
increases the sum. -/
theorem sum_set_lt : ∀ (l : List Nat) (i v : Nat), i < l.length →
    l.getD i 0 < v → l.sum < (l.set i v).sum
  | a :: t, 0, v, _, hv => by
    simp only [List.getD_cons_zero] at hv
    simp only [List.set_cons_zero, List.sum_cons]
    omega
  | a :: t, i + 1, v, hi, hv => by
    simp only [List.getD_cons_succ] at hv
    simp only [List.set_cons_succ, List.sum_cons]
    have := sum_set_lt t i v (by simpa using hi) hv
    omega

/-- C3: every successful `create_block` call on a reachable state (the three
per-instance rounds plus the constant fourth 0 slot) emits as `block_round`
the sum over the DAG instances of their last-committed anchor rounds with
the incoming anchor's round replacing its instance's entry; any further
successful call emits a strictly larger `block_round`; and concretely the
state `{2, 3, 2}` emits round 7, after which instance 0 committing round 3
emits round 8. -/
theorem C3_block_round_is_sum_and_increasing
    (r0 r1 r2 dagId anchorRound br : Nat) (st : List Nat)
    (hd : dagId < 3)
    (h : createBlock [r0, r1, r2, 0] dagId anchorRound = some (br, st)) :
    (br = ([r0, r1, r2].set dagId anchorRound).sum ∧
      st = [r0, r1, r2].set dagId anchorRound ++ [0]) ∧
    (∀ dagId2 r4 br2 st2, createBlock st dagId2 r4 = some (br2, st2) →
      br < br2) ∧
    (createBlock [2, 3, 0, 0] 2 2 = some (7, [2, 3, 2, 0]) ∧
      createBlock [2, 3, 2, 0] 0 3 = some (8, [3, 3, 2, 0])) := by
  unfold createBlock at h
  split at h
  case isFalse => exact Option.noConfusion h
  case isTrue hcond =>
    obtain ⟨hbr, hst⟩ : br = ([r0, r1, r2, 0].set dagId anchorRound).sum ∧
        st = [r0, r1, r2, 0].set dagId anchorRound := by
      have := h
      simp only [Option.some_inj] at this
      exact ⟨congrArg Prod.fst this.symm, congrArg Prod.snd this.symm⟩
    have hsplit : [r0, r1, r2, 0].set dagId anchorRound =
        [r0, r1, r2].set dagId anchorRound ++ [0] := by
      interval_cases dagId <;> rfl
    refine ⟨⟨?_, ?_⟩, ?_, by decide, by decide⟩
    · rw [hbr, hsplit]
      simp
    · rw [hst, hsplit]
    · intro dagId2 r4 br2 st2 h2
      unfold createBlock at h2
      split at h2
      case isFalse => exact Option.noConfusion h2
      case isTrue hcond2 =>
        have hbr2 : br2 = (st.set dagId2 r4).sum := by
          simp only [Option.some_inj] at h2
          exact congrArg Prod.fst h2.symm
        have hbr' : br = st.sum := by
          rw [hbr, hst]
        rw [hbr', hbr2]
        exact sum_set_lt st dagId2 r4 hcond2.1 hcond2.2

/-- C3 witness: applying the theorem at the concrete scenario — instance 0
commits round 3 on top of state `{2, 3, 2}`, giving block round 8. -/
theorem C3_block_round_witness :
    8 = ([2, 3, 2].set 0 3).sum ∧ [3, 3, 2, 0] = [2, 3, 2].set 0 3 ++ [0] :=
  (C3_block_round_is_sum_and_increasing 2 3 2 0 3 8 [3, 3, 2, 0]
    (by decide) (by decide)).1

end Shoalpp

namespace DagDriver

/-- The externally visible effects of the tail of
`DagDriver::enter_new_round`, in program order. -/
inductive DriverEffect where
  | savePendingNode (round timestamp : Nat)
  | broadcastNode (round timestamp : Nat)
  deriving DecidableEq, Repr

/-- The node-formation tail of `DagDriver::enter_new_round` (dag_driver.rs
lines 300-324): `highest_parent_timestamp` is
`strong_links.iter().map(timestamp).max().unwrap_or(0)`; the node timestamp
is `max(now_unix_micros, highest_parent_timestamp + 1)`; then the node is
persisted with `save_pending_node` and afterwards handed to
`broadcast_node`. Returns the formed timestamp and the effect sequence. -/
def enterNewRoundTail (newRound nowMicros : Nat)
    (parentTimestamps : List Nat) : Nat × List DriverEffect :=
  let highest_parent_timestamp := parentTimestamps.max?.getD 0
  let timestamp := max nowMicros (highest_parent_timestamp + 1)
  (timestamp,
   [DriverEffect.savePendingNode newRound timestamp,
    DriverEffect.broadcastNode newRound timestamp])

theorem foldl_max_eq_max_foldr (a : Nat) (t : List Nat) :
    t.foldl max a = max a (t.foldr max 0) := by
  induction t generalizing a with
  | nil => simp
  | cons b t ih => simp [List.foldl_cons, List.foldr_cons, ih, Nat.max_assoc]

theorem max?_getD_eq_foldr (l : List Nat) : l.max?.getD 0 = l.foldr max 0 := by
  cases l with
  | nil => rfl
  | cons a t => simp [List.max?, foldl_max_eq_max_foldr]

/-- C6: whenever the driver enters a new round and forms a node, the node's
timestamp is the maximum of the wall clock (in microseconds) and one more
than the highest parent strong-link timestamp (0 when there are no parents,
i.e. round 1); and the pending-node save occurs strictly before the
broadcast in the effect sequence. -/
theorem C6_node_timestamp_and_persist_order (newRound nowMicros : Nat)
    (parentTimestamps : List Nat) :
    (enterNewRoundTail newRound nowMicros parentTimestamps).1 =
      max nowMicros (parentTimestamps.foldr max 0 + 1) ∧
    ∃ i j, i < j ∧
      (enterNewRoundTail newRound nowMicros parentTimestamps).2.get? i =
        some (DriverEffect.savePendingNode newRound
          (enterNewRoundTail newRound nowMicros parentTimestamps).1) ∧
      (enterNewRoundTail newRound nowMicros parentTimestamps).2.get? j =
        some (DriverEffect.broadcastNode newRound
          (enterNewRoundTail newRound nowMicros parentTimestamps).1) := by
  refine ⟨?_, 0, 1, Nat.zero_lt_one, rfl, rfl⟩
  unfold enterNewRoundTail
  rw [max?_getD_eq_foldr]

end DagDriver

namespace GasProfiler

/-!
`ExecutionGasEvent` and `CallFrame` (log.rs lines 20-66). `InternalGas` is a
u64 quantity modelled as Nat; opcodes, identifiers, addresses and type tags
take part in no cost computation and are modelled as Nat. The
`Vec<ExecutionGasEvent>` inside a frame is modelled by the mutually inductive
`EventList` (isomorphic to a Lean `List`) so that all recursion is
structural.
-/

mutual
inductive ExecutionGasEvent where
  | Loc (offset : Nat)
  | Bytecode (op : Nat) (cost : Nat)
  | Call (frame : CallFrame)
  | CallNative (cost : Nat)
  | LoadResource (cost : Nat)
  | CreateTy (cost : Nat)
inductive CallFrame where
  | mk (name : Nat) (events : EventList) (native_gas : Nat)
inductive EventList where
  | nil
  | cons (head : ExecutionGasEvent) (tail : EventList)
end

def EventList.append : EventList → EventList → EventList
  | .nil, ys => ys
  | .cons x xs, ys => .cons x (xs.append ys)

mutual
/-- The event sequence yielded by `GasEventIter` (log.rs lines 163-190)
starting from a single event: the event itself, then — when the event is a
`Call` — the walk of the called frame's events. -/
def eventSeq : ExecutionGasEvent → EventList
  | .Call f => .cons (.Call f) (frameSeq f)
  | e => .cons e .nil
/-- The event sequence of `gas_events()` on a frame: the iterator starts with
the frame on the stack and walks its events in order. -/
def frameSeq : CallFrame → EventList
  | .mk _ events _ => eventsSeq events
def eventsSeq : EventList → EventList
  | .nil => .nil
  | .cons e es => (eventSeq e).append (eventsSeq es)
end

/-- The cost a yielded event contributes inside `assert_consistency`'s loop
(log.rs lines 279-287): `Loc` and `Call` contribute nothing, the other four
contribute their cost field. -/
def eventOwnCost : ExecutionGasEvent → Nat
  | .Loc _ => 0
  | .Bytecode _ cost => cost
  | .Call _ => 0
  | .CallNative cost => cost
  | .LoadResource cost => cost
  | .CreateTy cost => cost

def EventList.sumOwnCost : EventList → Nat
  | .nil => 0
  | .cons e es => eventOwnCost e + es.sumOwnCost

/-- `Dependency` (log.rs lines 109-116); only the cost matters here. -/
structure Dependency where
  kind : Nat
  id : Nat
  size : Nat
  cost : Nat

/-- `EventTransient` (log.rs lines 96-100). -/
structure EventTransient where
  ty : Nat
  cost : Nat

/-- `WriteTransient` (log.rs lines 79-84). -/
structure WriteTransient where
  key : Nat
  op_type : Nat
  cost : Nat

/-- `ExecutionAndIOCosts` (log.rs lines 129-141). -/
structure ExecutionAndIOCosts where
  gas_scaling_factor : Nat
  total : Nat
  intrinsic_cost : Nat
  keyless_cost : Nat
  dependencies : List Dependency
  call_graph : CallFrame
  transaction_transient : Option Nat
  events_transient : List EventTransient
  write_set_transient : List WriteTransient

/-- The total recomputed by `ExecutionAndIOCosts::assert_consistency`
(log.rs lines 267-300), accumulated in source order: intrinsic cost, keyless
cost, dependency costs, the per-event costs over the `gas_events()` walk of
the call graph, the transaction transient cost when present, the event
transient costs, and the write set transient costs. -/
def ExecutionAndIOCosts.calculated (c : ExecutionAndIOCosts) : Nat :=
  c.intrinsic_cost + c.keyless_cost
    + (c.dependencies.map Dependency.cost).sum
    + (frameSeq c.call_graph).sumOwnCost
    + (match c.transaction_transient with
       | some cost => cost
       | none => 0)
    + (c.events_transient.map EventTransient.cost).sum
    + (c.write_set_transient.map WriteTransient.cost).sum

/-- `assert_consistency` panics exactly when the recomputed total differs
from the `total` reported by the gas meter (log.rs lines 301-306). -/
def ExecutionAndIOCosts.assertConsistencyPanics (c : ExecutionAndIOCosts) : Bool :=
  c.calculated != c.total

mutual
/-- Claim-side leaf cost of one event of the call tree: `Bytecode`,
`CallNative`, `LoadResource` and `CreateTy` leaves contribute their cost;
`Loc` contributes nothing; a `Call` contributes the leaf costs of its
subtree. -/
def eventLeafCost : ExecutionGasEvent → Nat
  | .Loc _ => 0
  | .Bytecode _ cost => cost
  | .Call f => frameLeafCost f
  | .CallNative cost => cost
  | .LoadResource cost => cost
  | .CreateTy cost => cost
def frameLeafCost : CallFrame → Nat
  | .mk _ events _ => eventsLeafCost events
def eventsLeafCost : EventList → Nat
  | .nil => 0
  | .cons e es => eventLeafCost e + eventsLeafCost es
end

theorem sumOwnCost_append : ∀ (xs ys : EventList),
    (xs.append ys).sumOwnCost = xs.sumOwnCost + ys.sumOwnCost
  | .nil, ys => by simp [EventList.append, EventList.sumOwnCost]
  | .cons e es, ys => by
    simp [EventList.append, EventList.sumOwnCost, sumOwnCost_append es ys]
    omega

mutual
/-- Summing the per-event costs over the iterator walk of one event equals
the leaf cost of that event's subtree. -/
theorem eventSeq_sum (e : ExecutionGasEvent) :
    (eventSeq e).sumOwnCost = eventLeafCost e := by
  cases e with
  | Call f =>
    rw [show eventSeq (.Call f) = .cons (.Call f) (frameSeq f) from rfl]
    rw [show eventLeafCost (.Call f) = frameLeafCost f from rfl]
    have := frameSeq_sum f
    simp [EventList.sumOwnCost, eventOwnCost, this]
  | Loc o => rfl
  | Bytecode op c => rfl
  | CallNative c => rfl
  | LoadResource c => rfl
  | CreateTy c => rfl
theorem frameSeq_sum (f : CallFrame) :
    (frameSeq f).sumOwnCost = frameLeafCost f := by
  cases f with
  | mk n events g =>
    rw [show frameSeq (.mk n events g) = eventsSeq events from rfl]
    rw [show frameLeafCost (.mk n events g) = eventsLeafCost events from rfl]
    exact eventsSeq_sum events
theorem eventsSeq_sum (es : EventList) :
    (eventsSeq es).sumOwnCost = eventsLeafCost es := by
  cases es with
  | nil => rfl
  | cons e tail =>
    rw [show eventsSeq (.cons e tail) = (eventSeq e).append (eventsSeq tail)
      from rfl]
    rw [sumOwnCost_append, eventSeq_sum e, eventsSeq_sum tail]
    rfl
end

/-- C4: `assert_consistency` panics exactly when intrinsic cost + keyless
cost + dependency costs + the leaf event costs of the whole call tree
(`Bytecode`, `CallNative`, `LoadResource`, `CreateTy` events; `Loc` and
`Call` events contribute nothing themselves) + the transaction transient
cost when present + event transient costs + write set transient costs differ
from the `total` field; in particular a log whose leaf costs sum to 100 but
whose total field is 101 panics. -/
theorem C4_assert_consistency_iff_mismatch (c : ExecutionAndIOCosts) :
    (c.assertConsistencyPanics = true ↔
      c.intrinsic_cost + c.keyless_cost
        + (c.dependencies.map Dependency.cost).sum
        + frameLeafCost c.call_graph + c.transaction_transient.getD 0
        + (c.events_transient.map EventTransient.cost).sum
        + (c.write_set_transient.map WriteTransient.cost).sum ≠ c.total) ∧
    ExecutionAndIOCosts.assertConsistencyPanics
      { gas_scaling_factor := 1, total := 101, intrinsic_cost := 0,
        keyless_cost := 0, dependencies := [],
        call_graph := .mk 0 (.cons (.Bytecode 7 60)
          (.cons (.Call (.mk 1 (.cons (.LoadResource 40) .nil) 0)) .nil)) 0,
        transaction_transient := none, events_transient := [],
        write_set_transient := [] } = true := by
  constructor
  · unfold ExecutionAndIOCosts.assertConsistencyPanics
      ExecutionAndIOCosts.calculated
    rw [frameSeq_sum]
    cases c.transaction_transient <;> simp [bne_iff_ne, Option.getD]
  · rfl

end GasProfiler

namespace Exec

/-- n-byte little-endian encoding of a value (the fixed-width integer layout
used by canonical BCS serialization). -/
def leBytes : Nat → Nat → List Nat
  | 0, _ => []
  | n + 1, v => v % 256 :: leBytes n (v / 256)

/-- Little-endian decoding of a byte list. -/
def fromLeBytes : List Nat → Nat
  | [] => 0
  | b :: bs => b + 256 * fromLeBytes bs

/-- `serialize_delayed_field_tuple` (types.rs lines 1651-1655). Modelled from
the spec: BCS (external crate, not under src/) canonically serializes the
tuple `(u128, u32)` as the 16 little-endian bytes of the u128 followed by
the 4 little-endian bytes of the u32. -/
def serialize_delayed_field_tuple (v r : Nat) : List Nat :=
  leBytes 16 v ++ leBytes 4 r

/-- `deserialize_to_delayed_field_u128` (types.rs lines 1660-1662). Modelled
from the spec: BCS deserialization of `(u128, u32)` consumes exactly 20
bytes (16 + 4) and fails on any other length. -/
def deserialize_to_delayed_field_u128 (bytes : List Nat) :
    Except Unit (Nat × Nat) :=
  if bytes.length = 20 then
    .ok (fromLeBytes (bytes.take 16), fromLeBytes (bytes.drop 16))
  else .error ()

theorem leBytes_length : ∀ (n v : Nat), (leBytes n v).length = n
  | 0, _ => rfl
  | n + 1, v => by simp [leBytes, leBytes_length n (v / 256)]

theorem fromLeBytes_leBytes : ∀ (n v : Nat),
    fromLeBytes (leBytes n v) = v % 256 ^ n
  | 0, v => by simp [leBytes, fromLeBytes, Nat.mod_one]
  | n + 1, v => by
    rw [show leBytes (n + 1) v = v % 256 :: leBytes n (v / 256) from rfl]
    rw [show fromLeBytes (v % 256 :: leBytes n (v / 256)) =
      v % 256 + 256 * fromLeBytes (leBytes n (v / 256)) from rfl]
    rw [fromLeBytes_leBytes n (v / 256), pow_succ, mul_comm (256 ^ n) 256,
      Nat.mod_mul]

/-- C9: deserializing the serialization of any delayed-field tuple `(v, r)`
with `v` a u128 and `r` a u32 returns exactly `(v, r)`. -/
theorem C9_delayed_field_round_trip (v r : Nat) (hv : v < 2 ^ 128)
    (hr : r < 2 ^ 32) :
    deserialize_to_delayed_field_u128 (serialize_delayed_field_tuple v r) =
      .ok (v, r) := by
  unfold deserialize_to_delayed_field_u128 serialize_delayed_field_tuple
  have h16 := leBytes_length 16 v
  have h4 := leBytes_length 4 r
  rw [if_pos (by simp [h16, h4])]
  have htake : (leBytes 16 v ++ leBytes 4 r).take 16 = leBytes 16 v := by
    rw [← h16]
    exact List.take_left _ _
  have hdrop : (leBytes 16 v ++ leBytes 4 r).drop 16 = leBytes 4 r := by
    rw [← h16]
    exact List.drop_left _ _
  rw [htake, hdrop, fromLeBytes_leBytes, fromLeBytes_leBytes]
  have e1 : (256 : Nat) ^ 16 = 2 ^ 128 := by norm_num
  have e2 : (256 : Nat) ^ 4 = 2 ^ 32 := by norm_num
  rw [e1, e2, Nat.mod_eq_of_lt hv, Nat.mod_eq_of_lt hr]

/-- C9 witness: the round trip at the concrete tuple `(5, 7)`. -/
theorem C9_delayed_field_round_trip_witness :
    deserialize_to_delayed_field_u128 (serialize_delayed_field_tuple 5 7) =
      .ok (5, 7) :=
  C9_delayed_field_round_trip 5 7 (by norm_num) (by norm_num)

/-- `WriteOpKind` (aptos-types write_set): creation, modification or
deletion. -/
inductive WriteOpKind where
  | Creation
  | Modification
  | Deletion
  deriving DecidableEq, Repr

/-- `ValueType` (types.rs lines 175-181): a test value with optional bytes,
opaque metadata and a write-op kind. -/
structure ValueType where
  bytes : Option (List Nat)
  metadata : Nat
  write_op_kind : WriteOpKind
  deriving DecidableEq, Repr

/-- `MockOutput` (types.rs lines 1312-1328). The key type is a parameter as
in the Rust generic; the element types no claim inspects (module writes,
delta ops, events, delayed-field reads, group metadata) are carried as
opaque Nat payloads. `materialized_delta_writes : Option _` models the
OnceCell (`none` = unset). -/
structure MockOutput (K : Type) where
  writes : List (K × ValueType)
  aggregator_v1_writes : List (K × ValueType)
  group_writes : List (K × ValueType × Nat × List (Nat × ValueType))
  module_writes : List Nat
  deltas : List (K × Nat)
  events : List Nat
  read_results : List (Option (List Nat))
  delayed_field_reads : List (Nat × Nat × K)
  module_read_results : List (Option Nat)
  read_group_size_or_metadata : List (K × Nat)
  materialized_delta_writes : Option (List (K × Nat))
  total_gas : Nat
  skipped : Bool
  maybe_error_msg : Option String

/-- `MockOutput::empty_output` (types.rs lines 1411-1428): every collection
empty, a fresh unset OnceCell, zero gas, the given skipped flag and error
message. -/
def MockOutput.empty_output (K : Type) (skipped : Bool)
    (error_msg : Option String) : MockOutput K :=
  { writes := []
    aggregator_v1_writes := []
    group_writes := []
    module_writes := []
    deltas := []
    events := []
    read_results := []
    delayed_field_reads := []
    module_read_results := []
    read_group_size_or_metadata := []
    materialized_delta_writes := none
    total_gas := 0
    skipped := skipped
    maybe_error_msg := error_msg }

/-- `MockOutput::with_error` (types.rs lines 1431-1433): an empty output with
skipped = true and the error message set. -/
def MockOutput.with_error (K : Type) (error : String) : MockOutput K :=
  MockOutput.empty_output K true (some error)

/-- Modelled from the spec: `ExecutionStatus` (block-executor task.rs, not
under src/) is the executor's control surface — a per-transaction Success
output, a SkipRest output terminating the block, or a fatal Abort error. -/
inductive ExecutionStatus (O E : Type) where
  | Success (output : O)
  | SkipRest (output : O)
  | Abort (error : E)

/-- The `abort_with_error` closure of `MockTask::execute_transaction`
(types.rs lines 970-971): despite its name it returns
`ExecutionStatus::Success(MockOutput::with_error(msg))`. -/
def abort_with_error (K : Type) (msg : String) :
    ExecutionStatus (MockOutput K) Nat :=
  .Success (MockOutput.with_error K msg)

/-- C10: every speculative-error output of the mock executor is an empty skip
output — `with_error` produces empty writes, aggregator-v1 writes, group
writes, module writes, deltas, events, read results, delayed-field reads,
module read results and group size/metadata reads, zero total gas, skipped
set, the error message set, and the OnceCell slot unset; and the
`abort_with_error` path wraps it in `ExecutionStatus::Success`, never
`Abort`. -/
theorem C10_with_error_is_empty_skip_output (K : Type) (msg : String) :
    (MockOutput.with_error K msg).writes = [] ∧
    (MockOutput.with_error K msg).aggregator_v1_writes = [] ∧
    (MockOutput.with_error K msg).group_writes = [] ∧
    (MockOutput.with_error K msg).module_writes = [] ∧
    (MockOutput.with_error K msg).deltas = [] ∧
    (MockOutput.with_error K msg).events = [] ∧
    (MockOutput.with_error K msg).read_results = [] ∧
    (MockOutput.with_error K msg).delayed_field_reads = [] ∧
    (MockOutput.with_error K msg).module_read_results = [] ∧
    (MockOutput.with_error K msg).read_group_size_or_metadata = [] ∧
    (MockOutput.with_error K msg).materialized_delta_writes = none ∧
    (MockOutput.with_error K msg).total_gas = 0 ∧
    (MockOutput.with_error K msg).skipped = true ∧
    (MockOutput.with_error K msg).maybe_error_msg = some msg ∧
    abort_with_error K msg =
      ExecutionStatus.Success (MockOutput.with_error K msg) ∧
    ∀ e, abort_with_error K msg ≠ ExecutionStatus.Abort e :=
  ⟨rfl, rfl, rfl, rfl, rfl, rfl, rfl, rfl, rfl, rfl, rfl, rfl, rfl, rfl, rfl,
   fun _ h => ExecutionStatus.noConfusion h⟩

/-- Modelled from the spec: `decrement_size_for_remove_tag` (aptos-vm-types
resource_group_adapter, not under src/) decrements the tracked group size
and fails when the size would underflow. -/
def decrement_size_for_remove_tag (size old : Nat) : Except Unit Nat :=
  if old ≤ size then .ok (size - old) else .error ()

/-- Modelled from the spec: `increment_size_for_add_tag` increments the
tracked group size with checked u64 arithmetic and fails on overflow. -/
def increment_size_for_add_tag (size add : Nat) : Except Unit Nat :=
  if size + add < 2 ^ 64 then .ok (size + add) else .error ()

/-- One tag's group-size update inside the group-writes loop of
`MockTask::execute_transaction` (types.rs lines 1183-1219): when the
maybe-op is present, an existing tag first has its old tagged size
decremented — early-returning
`abort_with_error("Failed to decrement resource group size")` on failure —
and a non-deletion op then has the new tagged size incremented —
early-returning `abort_with_error("Failed to increment resource group size")`
on failure. `.error` carries the early-returned execution status, `.ok` the
updated group size. `old_size` and `new_tagged_size` stand for the
externally computed `group_tagged_resource_size` values. -/
def groupSizeUpdateStep (K : Type) (exists_tag : Bool)
    (new_inner_op : Option ValueType) (old_size new_tagged_size : Nat)
    (new_group_size : Nat) :
    Except (ExecutionStatus (MockOutput K) Nat) Nat :=
  match new_inner_op with
  | none => .ok new_group_size
  | some op =>
    let afterDec : Except (ExecutionStatus (MockOutput K) Nat) Nat :=
      if exists_tag then
        match decrement_size_for_remove_tag new_group_size old_size with
        | .ok s => .ok s
        | .error _ =>
          .error (abort_with_error K "Failed to decrement resource group size")
      else .ok new_group_size
    match afterDec with
    | .error st => .error st
    | .ok s1 =>
      if op.write_op_kind ≠ WriteOpKind.Deletion then
        match increment_size_for_add_tag s1 new_tagged_size with
        | .ok s2 => .ok s2
        | .error _ =>
          .error (abort_with_error K "Failed to increment resource group size")
      else .ok s1

/-- C7: whenever a resource group size update fails during mock execution of
a Write transaction — `decrement_size_for_remove_tag` or
`increment_size_for_add_tag` returns an error — the early-returned execution
status is `ExecutionStatus::Success` carrying a per-transaction error
message, and never `ExecutionStatus::Abort`, so the block is not aborted. -/
theorem C7_group_size_failure_is_success_with_error (K : Type)
    (exists_tag : Bool) (new_inner_op : Option ValueType)
    (old_size new_tagged_size new_group_size : Nat)
    (st : ExecutionStatus (MockOutput K) Nat)
    (h : groupSizeUpdateStep K exists_tag new_inner_op old_size
      new_tagged_size new_group_size = .error st) :
    (st = abort_with_error K "Failed to decrement resource group size" ∨
      st = abort_with_error K "Failed to increment resource group size") ∧
    (∃ msg, st = ExecutionStatus.Success (MockOutput.with_error K msg)) ∧
    ∀ e, st ≠ ExecutionStatus.Abort e := by
  have hmain : st = abort_with_error K "Failed to decrement resource group size" ∨
      st = abort_with_error K "Failed to increment resource group size" := by
    unfold groupSizeUpdateStep at h
    cases new_inner_op with
    | none => exact Except.noConfusion h
    | some op =>
      simp only at h
      by_cases he : exists_tag = true
      · rw [if_pos he] at h
        cases hd : decrement_size_for_remove_tag new_group_size old_size with
        | error u =>
          rw [hd] at h
          exact Or.inl (Except.error.inj h).symm
        | ok s =>
          rw [hd] at h
          replace h : (if op.write_op_kind ≠ WriteOpKind.Deletion then
              match increment_size_for_add_tag s new_tagged_size with
              | .ok s2 => (.ok s2 : Except (ExecutionStatus (MockOutput K) Nat) Nat)
              | .error _ =>
                .error (abort_with_error K "Failed to increment resource group size")
            else .ok s) = .error st := h
          by_cases hk : op.write_op_kind ≠ WriteOpKind.Deletion
          · rw [if_pos hk] at h
            cases hi : increment_size_for_add_tag s new_tagged_size with
            | error u =>
              rw [hi] at h
              exact Or.inr (Except.error.inj h).symm
            | ok s2 =>
              rw [hi] at h
              exact Except.noConfusion h
          · rw [if_neg hk] at h
            exact Except.noConfusion h
      · rw [if_neg he] at h
        replace h : (if op.write_op_kind ≠ WriteOpKind.Deletion then
            match increment_size_for_add_tag new_group_size new_tagged_size with
            | .ok s2 => (.ok s2 : Except (ExecutionStatus (MockOutput K) Nat) Nat)
            | .error _ =>
              .error (abort_with_error K "Failed to increment resource group size")
          else .ok new_group_size) = .error st := h
        by_cases hk : op.write_op_kind ≠ WriteOpKind.Deletion
        · rw [if_pos hk] at h
          cases hi : increment_size_for_add_tag new_group_size new_tagged_size with
          | error u =>
            rw [hi] at h
            exact Or.inr (Except.error.inj h).symm
          | ok s2 =>
            rw [hi] at h
            exact Except.noConfusion h
        · rw [if_neg hk] at h
          exact Except.noConfusion h
  refine ⟨hmain, ?_, ?_⟩
  · rcases hmain with hst | hst
    · exact ⟨"Failed to decrement resource group size", hst⟩
    · exact ⟨"Failed to increment resource group size", hst⟩
  · intro e hab
    rcases hmain with hst | hst <;> rw [hst] at hab <;>
      exact ExecutionStatus.noConfusion hab

/-- C7 witness: a concrete failing decrement — the tag exists with old
tagged size 5 while the tracked group size is only 3 — yields the
Success-with-error status and not an abort. -/
theorem C7_group_size_failure_witness :
    ((abort_with_error Nat "Failed to decrement resource group size" =
        abort_with_error Nat "Failed to decrement resource group size" ∨
      abort_with_error Nat "Failed to decrement resource group size" =
        abort_with_error Nat "Failed to increment resource group size") ∧
    (∃ msg, abort_with_error Nat "Failed to decrement resource group size" =
      ExecutionStatus.Success (MockOutput.with_error Nat msg)) ∧
    ∀ e, abort_with_error Nat "Failed to decrement resource group size" ≠
      ExecutionStatus.Abort e) :=
  C7_group_size_failure_is_success_with_error Nat true
    (some { bytes := some [], metadata := 0, write_op_kind := .Creation })
    5 1 3 _ rfl

end Exec
